import Mathlib

/-
Verification of the answer-matching engine, the story highlight segmentation,
the story word selection, and the backup import validation of the
minhas-palavras vocabulary app.  Strings are modelled as lists of unicode
scalar characters (one JS string element corresponds to one such character for
all texts this app processes).
-/

namespace MinhasPalavras

/-- Text is modelled as a list of characters. -/
abbrev Str := List Char

/-- The apostrophe character, built numerically. -/
def apos : Char := Char.ofNat 39

/-- Whitespace class used by the JS trim and the regex whitespace class,
restricted to the characters this app can encounter. -/
def isJsWhitespace (c : Char) : Bool :=
  c = ' ' || c = '\t' || c = '\n' || c = '\r' ||
  c = Char.ofNat 11 || c = Char.ofNat 12 || c = Char.ofNat 160

/-- Leading-whitespace removal. -/
def trimLeft (s : Str) : Str := s.dropWhile isJsWhitespace

/-- Trailing-whitespace removal. -/
def trimRight (s : Str) : Str := (s.reverse.dropWhile isJsWhitespace).reverse

/-- The JS String.trim operation: drop whitespace from both ends. -/
def trim (s : Str) : Str := trimRight (trimLeft s)

/-- Character lowercasing as JS toLowerCase acts on the Latin letters this app
uses: ASCII A-Z and the Latin-1 uppercase letters map down by 32. -/
def toLowerChar (c : Char) : Char :=
  if ('A' ≤ c ∧ c ≤ 'Z') ∨ ('À' ≤ c ∧ c ≤ 'Þ' ∧ c ≠ '×') then
    Char.ofNat (c.toNat + 32)
  else c

/-- The JS toLowerCase operation, applied characterwise. -/
def toLower (s : Str) : Str := s.map toLowerChar

/-- Accent folding from removeAccents in learn.tsx: the fallback accent map of
the source, applied characterwise.  The NFD-decomposition pass of the source
maps exactly these precomposed Latin letters to the same base letters, so the
combined effect of the two passes on the alphabets this app handles (Portuguese
and French) is this single map. -/
def accentFoldChar (c : Char) : Char :=
  match c with
  | 'à' | 'á' | 'â' | 'ã' | 'ä' | 'å' => 'a'
  | 'è' | 'é' | 'ê' | 'ë' => 'e'
  | 'ì' | 'í' | 'î' | 'ï' => 'i'
  | 'ò' | 'ó' | 'ô' | 'õ' | 'ö' => 'o'
  | 'ù' | 'ú' | 'û' | 'ü' => 'u'
  | 'ñ' => 'n'
  | 'ç' => 'c'
  | 'ý' | 'ÿ' => 'y'
  | 'À' | 'Á' | 'Â' | 'Ã' | 'Ä' | 'Å' => 'A'
  | 'È' | 'É' | 'Ê' | 'Ë' => 'E'
  | 'Ì' | 'Í' | 'Î' | 'Ï' => 'I'
  | 'Ò' | 'Ó' | 'Ô' | 'Õ' | 'Ö' => 'O'
  | 'Ù' | 'Ú' | 'Û' | 'Ü' => 'U'
  | 'Ñ' => 'N'
  | 'Ç' => 'C'
  | 'Ý' => 'Y'
  | _ => c

/-- The removeAccents function of learn.tsx. -/
def removeAccents (s : Str) : Str := s.map accentFoldChar

/-- The ARTICLES list of learn.tsx, in source order.  The two elision forms
carry an apostrophe, built here from the apos character. -/
def ARTICLES : List Str :=
  [("o").toList, ("a").toList, ("os").toList, ("as").toList,
   ("um").toList, ("uma").toList, ("uns").toList, ("umas").toList,
   ("le").toList, ("la").toList, ("les").toList, ['l', apos],
   ("un").toList, ("une").toList, ("des").toList, ("du").toList,
   ("de la").toList, ("de l").toList ++ [apos]]

/-- Stable insertion step for a descending sort by a numeric key: an element
already in place stays before the inserted one exactly when its key is
strictly larger, which preserves the original order of equal keys. -/
def insertByKeyDesc {α : Type} (key : α → Nat) (w : α) : List α → List α
  | [] => [w]
  | x :: xs => if key w < key x then x :: insertByKeyDesc key w xs else w :: x :: xs

/-- Stable descending sort by a numeric key, modelling the stable JS
Array.sort with comparator b.length - a.length. -/
def sortByKeyDesc {α : Type} (key : α → Nat) (l : List α) : List α :=
  l.foldr (insertByKeyDesc key) []

/-- The sortedArticles list of normalizeForComparison: ARTICLES stably sorted
by descending length. -/
def sortedArticles : List Str := sortByKeyDesc List.length ARTICLES

/-- Whether a string starts with a whitespace character. -/
def startsWithWs : Str → Bool
  | [] => false
  | c :: _ => isJsWhitespace c

/-- One iteration of the article loop of normalizeForComparison: first the
anchored replace of the article followed by one or more whitespace characters
(the greedy whitespace run is removed with the article), then the anchored
replace of the article standing alone.  Both replaces are applied in sequence
to the current string, as in the source. -/
def stripArticleStep (s article : Str) : Str :=
  let s1 :=
    if article.isPrefixOf s && startsWithWs (s.drop article.length) then
      (s.drop article.length).dropWhile isJsWhitespace
    else s
  if s1 = article then [] else s1

/-- The final anchored replace of normalizeForComparison removing a leading
elision (the letter l plus an apostrophe) with no separator. -/
def stripLeadingElision (s : Str) : Str :=
  if ['l', apos].isPrefixOf s then s.drop 2 else s

/-- The normalizeForComparison function of learn.tsx: trim and lowercase, run
the article loop over sortedArticles in order, strip a leading elision, trim
again. -/
def normalizeForComparison (text : Str) : Str :=
  trim (stripLeadingElision (sortedArticles.foldl stripArticleStep (toLower (trim text))))

/-- The singleAnswerMatches function of learn.tsx: exact, accent-insensitive,
article-insensitive, then accent-and-article-insensitive comparison. -/
def singleAnswerMatches (userAnswer correctAnswer : Str) : Bool :=
  let userTrimmed := toLower (trim userAnswer)
  let correctTrimmed := toLower (trim correctAnswer)
  if userTrimmed = correctTrimmed then true
  else if removeAccents userTrimmed = removeAccents correctTrimmed then true
  else
    let normalizedUser := normalizeForComparison userAnswer
    let normalizedCorrect := normalizeForComparison correctAnswer
    if normalizedUser = normalizedCorrect then true
    else if removeAccents normalizedUser = removeAccents normalizedCorrect then true
    else false

/-- The JS String.split on a single separator character. -/
def splitOnChar (sep : Char) : Str → List Str
  | [] => [[]]
  | c :: cs =>
    match splitOnChar sep cs with
    | [] => [[c]]
    | r :: rs => if c = sep then [] :: r :: rs else (c :: r) :: rs

/-- The answersMatch function of learn.tsx: split the correct answer on the
slash, trim each variant, accept when any variant matches. -/
def answersMatch (userAnswer correctAnswer : Str) : Bool :=
  let validAnswers := (splitOnChar '/' correctAnswer).map trim
  validAnswers.any fun valid => singleAnswerMatches userAnswer valid

/-- A usedWords entry of a StoryResult: a Portuguese phrase and its French
translation. -/
structure UsedWord where
  portuguese : Str
  french : Str
deriving DecidableEq, Repr

/-- Anchored attempt of the case-insensitive alternation of literal phrases at
the start of rest: the alternatives are tried in order and the first phrase
that is a case-insensitive prefix wins, returning the matched span of rest
with its original characters.  The phrases were escaped for literal matching
in the source, so each alternative matches exactly its own text. -/
def matchAt (phrases : List Str) (rest : Str) : Option Str :=
  match phrases with
  | [] => none
  | p :: ps =>
    if toLower (rest.take p.length) = toLower p then some (rest.take p.length)
    else matchAt ps rest

/-- The ECMAScript String.split algorithm for a separator regex consisting of
one capturing group around the alternation, specialized to literal
alternatives and retaining each captured match between the plain pieces.
The pend accumulator holds (reversed) the text between the last split point
and the scan position; fuel bounds the scan and is at least the length of the
remaining text at every call made with fuel = length of the initial text, so
the fuel-exhausted branch is never reached from storyParts. -/
def splitKeepAux (phrases : List Str) : Nat → Str → Str → List Str
  | _, pend, [] => [pend.reverse]
  | 0, pend, rest => [pend.reverse ++ rest]
  | fuel + 1, pend, c :: cs =>
    match matchAt phrases (c :: cs) with
    | none => splitKeepAux phrases fuel (c :: pend) cs
    | some [] =>
      if pend = [] then splitKeepAux phrases fuel [c] cs
      else pend.reverse :: [] :: splitKeepAux phrases fuel [c] cs
    | some (d :: ds) =>
      pend.reverse :: (d :: ds) :: splitKeepAux phrases fuel [] ((c :: cs).drop (d :: ds).length)

/-- The split performed by renderStoryWithHighlights in read.tsx: the used
words are stably sorted by descending Portuguese length, their Portuguese
phrases form the alternation, and the story is split by it retaining the
matches.  When the used-word list is empty the pattern is null and when the
story is empty the split is skipped, so the whole story is one piece. -/
def storyParts (usedWords : List UsedWord) (story : Str) : List Str :=
  let sortedWords := sortByKeyDesc (fun w => w.portuguese.length) usedWords
  let patterns := sortedWords.map (fun w => w.portuguese)
  if usedWords.isEmpty || story.isEmpty then [story]
  else splitKeepAux patterns story.length [] story

/-- The findMatchedWord function of read.tsx: resolve a piece against the
original (unsorted) used-word list by case-insensitive equality with the
Portuguese field. -/
def findMatchedWord (usedWords : List UsedWord) (text : Str) : Option UsedWord :=
  usedWords.find? fun w => toLower w.portuguese == toLower text

/-- The rendering of renderStoryWithHighlights, reduced to its data: each
piece of the split paired with whether it resolves to a used word and is
therefore highlighted. -/
def renderSegments (usedWords : List UsedWord) (story : Str) : List (Str × Bool) :=
  (storyParts usedWords story).map fun part => (part, (findMatchedWord usedWords part).isSome)

/-- The word selection of generateStory in gemini.ts, as a function of the
shuffled vocabulary: slice(0, min(25, max(15, floor(length times 0.3)))).
The JS floor of the double product length times 0.3 equals the integer
quotient 3 times length over 10 for every list length, since the double
product is within one part in 2 to the 52 of the rational value whose
distance to the nearest integer is at least one tenth when 10 does not
divide 3 times length, and the product rounds exactly to the integer when
it does. -/
def selectStoryWords (shuffled : List UsedWord) : List UsedWord :=
  shuffled.take (min 25 (max 15 (shuffled.length * 3 / 10)))

/-- Modelled from the spec: the selection size the specification states,
namely clamp(round(0.3 times N), 15, 25), additionally capped at N if
N is below 15, with round half-up as in JS Math.round. -/
def specStorySelectionCount (n : Nat) : Nat :=
  let c := min 25 (max 15 ((3 * n + 5) / 10))
  if n < 15 then min c n else c

/-- The Word record of types/index.ts. -/
structure Word where
  id : String
  portuguese : String
  french : String
  examples : List String
  createdAt : Nat
  updatedAt : Nat
deriving DecidableEq, Repr

/-- A word entry of a parsed backup document before validation.  The three
name fields are optional strings (absent field modelled as none); examples is
some list exactly when the field holds an array; the timestamps are optional
numbers. -/
structure RawWord where
  id : Option String
  portuguese : Option String
  french : Option String
  examples : Option (List String)
  createdAt : Option Nat
  updatedAt : Option Nat
deriving DecidableEq, Repr

/-- A parsed backup document: words is some list exactly when the field is
present and holds an array. -/
structure RawBackup where
  words : Option (List RawWord)
deriving DecidableEq, Repr

/-- JS truthiness of an optional string field: present and non-empty. -/
def truthyStr : Option String → Bool
  | none => false
  | some s => !(s == "")

/-- The in-place repairs importFromJson applies to a valid word: examples
coerced to the empty array when not an array, absent (or zero, which is falsy)
timestamps defaulted to the import-time clock. -/
def repairWord (now : Nat) (w : RawWord) : Word :=
  Word.mk (w.id.getD "") (w.portuguese.getD "") (w.french.getD "")
    (w.examples.getD [])
    (match w.createdAt with
     | some n => if n = 0 then now else n
     | none => now)
    (match w.updatedAt with
     | some n => if n = 0 then now else n
     | none => now)

/-- The truthiness test importFromJson applies to the three required fields of
a word. -/
def wordValid (w : RawWord) : Prop :=
  truthyStr w.id = true ∧ truthyStr w.portuguese = true ∧ truthyStr w.french = true

instance (w : RawWord) : Decidable (wordValid w) := by
  unfold wordValid
  infer_instance

/-- Validation of one word in the loop of importFromJson: throw when a
required field is falsy, otherwise repair. -/
def validateWord (now : Nat) (w : RawWord) : Except String Word :=
  if truthyStr w.id && truthyStr w.portuguese && truthyStr w.french then
    Except.ok (repairWord now w)
  else Except.error ("Invalid word data in backup file")

/-- The validation loop of importFromJson: the error of the first invalid
word aborts the whole import. -/
def validateWords (now : Nat) : List RawWord → Except String (List Word)
  | [] => Except.ok []
  | w :: ws =>
    match validateWord now w with
    | Except.error e => Except.error e
    | Except.ok v =>
      match validateWords now ws with
      | Except.error e => Except.error e
      | Except.ok vs => Except.ok (v :: vs)

/-- The importFromJson validation of backup.ts on a parsed document: reject a
document whose words field is absent or not an array, then validate and repair
every word. -/
def importFromJson (now : Nat) (data : RawBackup) : Except String (List Word) :=
  match data.words with
  | none => Except.error ("Invalid backup file format")
  | some ws => validateWords now ws

lemma toLower_eq_nil {s : Str} : toLower s = [] ↔ s = [] := by
  simp [toLower]

lemma removeAccents_eq_nil {s : Str} : removeAccents s = [] ↔ s = [] := by
  simp [removeAccents]

lemma answersMatch_eq_true (u c : Str) :
    answersMatch u c = true ↔
      ∃ v ∈ (splitOnChar '/' c).map trim, singleAnswerMatches u v = true := by
  simp [answersMatch, List.any_eq_true]

lemma singleAnswerMatches_eq_true (a b : Str) :
    singleAnswerMatches a b = true ↔
      (toLower (trim a) = toLower (trim b)
       ∨ removeAccents (toLower (trim a)) = removeAccents (toLower (trim b))
       ∨ normalizeForComparison a = normalizeForComparison b
       ∨ removeAccents (normalizeForComparison a) = removeAccents (normalizeForComparison b)) := by
  simp only [singleAnswerMatches]
  split_ifs with h1 h2 h3 h4 <;> simp_all

lemma take_append_drop_len {α : Type} : ∀ (k : Nat) (l : List α),
    l.take k ++ l.drop (l.take k).length = l
  | _, [] => by simp
  | 0, _ :: _ => by simp
  | k + 1, c :: cs => by
    simp only [List.take_succ_cons, List.length_cons, List.cons_append, List.drop_succ_cons]
    rw [take_append_drop_len k cs]

lemma matchAt_some : ∀ (phrases : List Str) (rest m : Str),
    matchAt phrases rest = some m → m ++ rest.drop m.length = rest
  | [], rest, m, h => by simp [matchAt] at h
  | p :: ps, rest, m, h => by
    rw [matchAt] at h
    by_cases hp : toLower (rest.take p.length) = toLower p
    · rw [if_pos hp] at h
      obtain rfl : rest.take p.length = m := by injection h
      exact take_append_drop_len _ _
    · rw [if_neg hp] at h
      exact matchAt_some ps rest m h

lemma splitKeepAux_join (phrases : List Str) :
    ∀ (fuel : Nat) (pend rest : Str),
      (splitKeepAux phrases fuel pend rest).flatten = pend.reverse ++ rest := by
  intro fuel
  induction fuel with
  | zero =>
    intro pend rest
    cases rest with
    | nil => simp [splitKeepAux]
    | cons c cs => simp [splitKeepAux]
  | succ n ih =>
    intro pend rest
    cases rest with
    | nil => simp [splitKeepAux]
    | cons c cs =>
      rw [splitKeepAux]
      cases hm : matchAt phrases (c :: cs) with
      | none =>
        simp only [ih]
        simp
      | some m =>
        cases m with
        | nil =>
          by_cases hp : pend = []
          · rw [if_pos hp]
            rw [ih]
            simp [hp]
          · rw [if_neg hp]
            simp only [List.flatten_cons, ih]
            simp
        | cons d ds =>
          have hd := matchAt_some phrases (c :: cs) (d :: ds) hm
          simp only [List.flatten_cons, ih]
          simp only [List.reverse_nil, List.nil_append, List.append_assoc]
          rw [hd]

lemma validateWord_ok {now : Nat} {w : RawWord} (h : wordValid w) :
    validateWord now w = Except.ok (repairWord now w) := by
  obtain ⟨h1, h2, h3⟩ := h
  simp [validateWord, h1, h2, h3]

lemma validateWords_ok (now : Nat) : ∀ {ws : List RawWord},
    (∀ w ∈ ws, wordValid w) → validateWords now ws = Except.ok (ws.map (repairWord now))
  | [], _ => rfl
  | w :: ws, h => by
    rw [validateWords, validateWord_ok (h w (by simp)),
      validateWords_ok now (fun x hx => h x (by simp [hx]))]
    rfl

lemma validateWords_err (now : Nat) : ∀ {ws : List RawWord},
    (∃ w ∈ ws, ¬ wordValid w) → ∃ e, validateWords now ws = Except.error e
  | [], h => by simp at h
  | w :: ws, h => by
    by_cases hw : wordValid w
    · have hex : ∃ x ∈ ws, ¬ wordValid x := by
        obtain ⟨x, hx, hnx⟩ := h
        rcases List.mem_cons.mp hx with rfl | hx2
        · exact absurd hw hnx
        · exact ⟨x, hx2, hnx⟩
      obtain ⟨e, he⟩ := validateWords_err now hex
      exact ⟨e, by rw [validateWords, validateWord_ok hw, he]⟩
    · refine ⟨"Invalid word data in backup file", ?_⟩
      rw [validateWords]
      have hvw : validateWord now w = Except.error ("Invalid word data in backup file") := by
        unfold validateWord
        split_ifs with hc
        · exact absurd (by simpa [wordValid, Bool.and_eq_true, and_assoc] using hc) hw
        · rfl
      rw [hvw]

/-- Claim C1: answersMatch splits the correct answer on the slash into trimmed
variants and returns true exactly when the user answer matches one of them;
in particular casa and maison each match the field maison / casa while
voiture matches neither variant. -/
theorem answersMatch_splits_variants :
    (∀ u c : Str, answersMatch u c = true ↔
      ∃ v ∈ (splitOnChar '/' c).map trim, singleAnswerMatches u v = true)
    ∧ answersMatch (("casa").toList) (("maison / casa").toList) = true
    ∧ answersMatch (("maison").toList) (("maison / casa").toList) = true
    ∧ answersMatch (("voiture").toList) (("maison / casa").toList) = false :=
  ⟨answersMatch_eq_true, by decide, by decide, by decide⟩

/-- Claim C2: singleAnswerMatches succeeds exactly when one of the four
case-insensitive equalities over the trimmed strings holds (raw,
accent-folded, article-normalized, or both), and hence the matcher accepts
the accent, article and case examples of the specification. -/
theorem singleAnswerMatches_four_ways :
    (∀ a b : Str, singleAnswerMatches a b = true ↔
      (toLower (trim a) = toLower (trim b)
       ∨ removeAccents (toLower (trim a)) = removeAccents (toLower (trim b))
       ∨ normalizeForComparison a = normalizeForComparison b
       ∨ removeAccents (normalizeForComparison a) = removeAccents (normalizeForComparison b)))
    ∧ answersMatch (("avião").toList) (("aviao").toList) = true
    ∧ answersMatch (("aviao").toList) (("avião").toList) = true
    ∧ answersMatch (("chien").toList) (("le chien").toList) = true
    ∧ answersMatch (("casa").toList) (("a casa").toList) = true
    ∧ answersMatch (("obligation").toList) (['l', apos] ++ ("obligation").toList) = true
    ∧ answersMatch (("CASA").toList) (("casa").toList) = true :=
  ⟨singleAnswerMatches_eq_true, by decide, by decide, by decide, by decide, by decide, by decide⟩

/-- Claim C3: the highlight segmentation loses no characters: the pieces the
split produces, concatenated in order, are exactly the original story, for
every used-word list and every story. -/
theorem storyParts_concat_eq_story (usedWords : List UsedWord) (story : Str) :
    (storyParts usedWords story).flatten = story := by
  simp only [storyParts]
  split
  · simp
  · rw [splitKeepAux_join]
    simp

/-- Claim C4: the alternation is built from the phrases sorted by descending
length, so for the vocabulary casa and casa grande over the story a casa
grande e bonita the single highlighted piece is casa grande, with the
surrounding plain text unhighlighted. -/
theorem highlight_longest_match_preferred :
    sortByKeyDesc (fun w : UsedWord => w.portuguese.length)
        [UsedWord.mk (("casa").toList) (("maison").toList),
         UsedWord.mk (("casa grande").toList) (("grande maison").toList)]
      = [UsedWord.mk (("casa grande").toList) (("grande maison").toList),
         UsedWord.mk (("casa").toList) (("maison").toList)]
    ∧ renderSegments
        [UsedWord.mk (("casa").toList) (("maison").toList),
         UsedWord.mk (("casa grande").toList) (("grande maison").toList)]
        (("a casa grande é bonita").toList)
      = [((("a ").toList), false), ((("casa grande").toList), true), (((" é bonita").toList), false)] :=
  ⟨by decide, by decide⟩

/-- Claim C5 counterexample: on the compound input de la la maison the
normalizer removes both leading articles and yields maison, not the
single-strip result la maison the claim describes. -/
theorem normalize_single_strip_counterexample :
    normalizeForComparison (("de la la maison").toList) = ("maison").toList
    ∧ normalizeForComparison (("de la la maison").toList) ≠ ("la maison").toList :=
  ⟨by decide, by decide⟩

/-- Claim C5 as amended: the longest-first article scan applies each article
once in order and does not restart after a strip, so an article occurring
later in the scan than one already stripped can be removed as well (de la la
maison normalizes to maison), while an article at or before the scan position
already passed is not removed (la le chien keeps le and normalizes to
le chien; a single leading article is stripped as usual). -/
theorem normalize_article_scan :
    normalizeForComparison (("de la la maison").toList) = ("maison").toList
    ∧ normalizeForComparison (("la le chien").toList) = ("le chien").toList
    ∧ normalizeForComparison (("le chien").toList) = ("chien").toList :=
  ⟨by decide, by decide, by decide⟩

/-- Claim C6: the article scan order is sorted by descending length, so the
longer article de la is tried before the shorter la, and accordingly la does
not match de la maison while maison does. -/
theorem articles_longest_first :
    List.Pairwise (fun a b : Str => b.length ≤ a.length) sortedArticles
    ∧ answersMatch (("la").toList) (("de la maison").toList) = false
    ∧ answersMatch (("maison").toList) (("de la maison").toList) = true :=
  ⟨by decide, by decide, by decide⟩

/-- Claim C7 counterexample: the non-empty user answer le matches the correct
answer consisting of a single slash although every variant of that answer is
empty after trimming, because a lone article normalizes to the empty string
on both sides. -/
theorem empty_variant_match_counterexample :
    (("le").toList : Str) ≠ []
    ∧ answersMatch (("le").toList) (("/").toList) = true
    ∧ ∀ v ∈ (splitOnChar '/' (("/").toList)).map trim, v = ([] : Str) :=
  ⟨by decide, by decide, by decide⟩

/-- Claim C7 as amended: a variant that is empty after trimming can only match
a user answer that itself trims or article-normalizes to the empty string; for
every user answer whose trimmed form and article-normalized form are both
non-empty, answersMatch is true only if the user answer matches some variant
that is non-empty after trimming. -/
theorem answersMatch_nonempty_variant (u c : Str)
    (h1 : trim u ≠ []) (h2 : normalizeForComparison u ≠ [])
    (h : answersMatch u c = true) :
    ∃ v ∈ (splitOnChar '/' c).map trim, v ≠ [] ∧ singleAnswerMatches u v = true := by
  obtain ⟨v, hv, hm⟩ := (answersMatch_eq_true u c).mp h
  refine ⟨v, hv, ?_, hm⟩
  rintro rfl
  rcases (singleAnswerMatches_eq_true u []).mp hm with h4 | h4 | h4 | h4
  · rw [show toLower (trim ([] : Str)) = [] from rfl] at h4
    exact h1 (by simpa [toLower_eq_nil] using h4)
  · rw [show removeAccents (toLower (trim ([] : Str))) = [] from rfl] at h4
    exact h1 (by simpa [toLower_eq_nil, removeAccents_eq_nil] using h4)
  · rw [show normalizeForComparison ([] : Str) = [] from rfl] at h4
    exact h2 h4
  · rw [show removeAccents (normalizeForComparison ([] : Str)) = [] from rfl] at h4
    exact h2 (by simpa [removeAccents_eq_nil] using h4)

/-- Witness for the amended claim C7 at the concrete pair casa, casa. -/
theorem answersMatch_nonempty_variant_witness :
    ∃ v ∈ (splitOnChar '/' (("casa").toList)).map trim,
      v ≠ [] ∧ singleAnswerMatches (("casa").toList) v = true :=
  answersMatch_nonempty_variant (("casa").toList) (("casa").toList)
    (by decide) (by decide) (by decide)

/-- Claim C8 counterexample: for a 55-word vocabulary the code selects
floor(16.5) = 16 words, not the clamp(round(16.5), 15, 25) = 17 the claim
states. -/
theorem story_selection_round_counterexample :
    (selectStoryWords (List.replicate 55 (UsedWord.mk [] []))).length
      ≠ specStorySelectionCount 55 :=
  by decide

/-- Claim C8 as amended: story generation selects exactly
clamp(floor(0.3 times N), 15, 25) words, additionally capped at N; in
particular 15 words for N = 40, 25 for N = 100 and 12 for N = 12. -/
theorem selectStoryWords_count :
    (∀ shuffled : List UsedWord,
      (selectStoryWords shuffled).length
        = min (min 25 (max 15 (shuffled.length * 3 / 10))) shuffled.length)
    ∧ (selectStoryWords (List.replicate 40 (UsedWord.mk [] []))).length = 15
    ∧ (selectStoryWords (List.replicate 100 (UsedWord.mk [] []))).length = 25
    ∧ (selectStoryWords (List.replicate 12 (UsedWord.mk [] []))).length = 12 := by
  refine ⟨fun shuffled => ?_, by decide, by decide, by decide⟩
  simp [selectStoryWords]

/-- Claim C9: import of a parsed backup fails when the words array is absent
or when some word has a falsy id, portuguese or french field, and otherwise
returns the word list with examples coerced to the empty array when not an
array and missing timestamps defaulted to the import-time clock. -/
theorem importFromJson_spec (now : Nat) (d : RawBackup) :
    (d.words = none → importFromJson now d = Except.error ("Invalid backup file format"))
    ∧ ∀ ws, d.words = some ws →
        ((∃ w ∈ ws, ¬ wordValid w) → ∃ e, importFromJson now d = Except.error e)
        ∧ ((∀ w ∈ ws, wordValid w) →
            importFromJson now d = Except.ok (ws.map (repairWord now))) := by
  refine ⟨fun h => by simp [importFromJson, h], fun ws hws => ⟨fun hex => ?_, fun hall => ?_⟩⟩
  · obtain ⟨e, he⟩ := validateWords_err now hex
    exact ⟨e, by simp [importFromJson, hws, he]⟩
  · simp [importFromJson, hws, validateWords_ok now hall]

/-- Witness for claim C9: a document without a words array is rejected, a word
with an empty id aborts the import, and a valid word with a non-array examples
field and a missing creation timestamp is repaired. -/
theorem importFromJson_spec_witness :
    importFromJson 7 (RawBackup.mk none) = Except.error ("Invalid backup file format")
    ∧ (∃ e, importFromJson 7 (RawBackup.mk (some
        [RawWord.mk (some ("")) (some ("casa")) (some ("maison")) none none none]))
        = Except.error e)
    ∧ importFromJson 7 (RawBackup.mk (some
        [RawWord.mk (some ("w1")) (some ("casa")) (some ("maison")) none none (some 5)]))
      = Except.ok ([RawWord.mk (some ("w1")) (some ("casa")) (some ("maison")) none none (some 5)].map
          (repairWord 7)) :=
  ⟨(importFromJson_spec 7 (RawBackup.mk none)).1 rfl,
   ((importFromJson_spec 7 (RawBackup.mk (some
        [RawWord.mk (some ("")) (some ("casa")) (some ("maison")) none none none]))).2
      _ rfl).1 ⟨RawWord.mk (some ("")) (some ("casa")) (some ("maison")) none none none,
        by simp, by decide⟩,
   ((importFromJson_spec 7 (RawBackup.mk (some
        [RawWord.mk (some ("w1")) (some ("casa")) (some ("maison")) none none (some 5)]))).2
      _ rfl).2 (by decide)⟩

/-- Claim C10: any two lone article tokens match each other, because article
normalization reduces each of them to the empty string and the
article-insensitive equality then holds. -/
theorem lone_article_answers_match :
    ∀ a ∈ ARTICLES, ∀ b ∈ ARTICLES, answersMatch a b = true := by
  decide

/-- Witness for claim C10 at the concrete articles le and a. -/
theorem lone_article_answers_match_witness :
    answersMatch (("le").toList) (("a").toList) = true :=
  lone_article_answers_match (("le").toList) (by decide) (("a").toList) (by decide)

end MinhasPalavras
